import Mathlib

/-!
Shallow embedding of the editing core of src/main.c (the Unied terminal
editor) and proofs about the frozen claims.

Modelling conventions:
- C `int` values used as indices or coordinates are modelled as `Int`,
  so that negative-index guards translate literally; conversion to list
  positions goes through `Int.toNat`.
- Line character buffers appear at two levels of abstraction.  The
  buffer-level model (`namespace Buf`) keeps the backing store, the
  recorded `size` and the capacity `allocated` exactly as in the C
  struct `EditorLine`, including NUL terminators, and is used for the
  claims about buffer invariants.  The document-level model represents
  each line by its content (the NUL-terminated prefix), which is the
  standard abstraction of a C string; allocation is assumed to succeed
  (the out-of-memory paths of the C code are not modelled).
- Loops of the C code are translated to structurally recursive
  functions; loops whose index variable is mutated inside the body are
  given an explicit fuel argument that is always called with a value
  large enough to cover every iteration.
-/

namespace Unied

/-! ### ASCII character classification (C locale, as used by main.c) -/

def nulChar : Char := Char.ofNat 0

/-- C `isdigit` in the C locale. -/
def isdigitC (c : Char) : Bool := 48 ≤ c.toNat && c.toNat ≤ 57

/-- C `tolower` in the C locale. -/
def tolowerC (c : Char) : Char :=
  if 65 ≤ c.toNat && c.toNat ≤ 90 then Char.ofNat (c.toNat + 32) else c

/-- C `isxdigit` in the C locale. -/
def isxdigitC (c : Char) : Bool :=
  isdigitC c || (97 ≤ (tolowerC c).toNat && (tolowerC c).toNat ≤ 102)

/-- C `isalnum` in the C locale. -/
def isalnumC (c : Char) : Bool :=
  isdigitC c || (65 ≤ c.toNat && c.toNat ≤ 90) || (97 ≤ c.toNat && c.toNat ≤ 122)

/-- C `isspace` in the C locale. -/
def isspaceC (c : Char) : Bool :=
  c.toNat = 32 || (9 ≤ c.toNat && c.toNat ≤ 13)

/-- C `isprint` in the C locale, on the `int` key code. -/
def isprintI (k : Int) : Bool := 32 ≤ k && k ≤ 126

/-! ### Selection normalization (src/main.c, get_normalized_selection_coords) -/

/-- Result record for the four out-parameters of
`get_normalized_selection_coords`. -/
structure SelCoords where
  sy : Int
  sx : Int
  ey : Int
  ex : Int
deriving DecidableEq, Repr

/-- Embeds `get_normalized_selection_coords` (src/main.c lines 2612-2634).
The editor-state inputs `E.visual_start_y`, `E.visual_start_x`,
`E.cursor_y`, `E.cursor_x` are passed as arguments, and the four
out-parameters are returned as a record. -/
def get_normalized_selection_coords (vy vx cy cx : Int) : SelCoords :=
  if vy < cy then
    { sy := vy, sx := vx, ey := cy, ex := cx }
  else if vy > cy then
    { sy := cy, sx := cx, ey := vy, ex := vx }
  else
    if vx < cx then
      { sy := vy, ey := cy, sx := vx, ex := cx }
    else
      { sy := vy, ey := cy, sx := cx, ex := vx }

/-! ### Buffer-level line model (C struct EditorLine)

The buffer-level model keeps the backing character store (`chars`, of
length `allocated`), the recorded content length `size` and the capacity
`allocated` exactly as in the C struct.  Cells of freshly allocated or
reallocated memory are uninitialized in C; the model fills them with NUL,
which no modelled operation ever reads before writing. -/

namespace Buf

def MAX_LINE_LENGTH_BUFFER : Nat := 256

structure Line where
  chars : List Char
  size : Nat
  allocated : Nat
deriving DecidableEq, Repr

/-- Well-formedness of a line buffer as maintained by the C code: the
backing store has exactly `allocated` cells, the recorded size leaves
room for the terminator, and the cell at `size` is NUL. -/
def Line.WF (l : Line) : Prop :=
  l.chars.length = l.allocated ∧ l.size < l.allocated ∧ l.chars.getD l.size nulChar = nulChar

/-- The capacity-growth step of `editor_line_insert_char` (src/main.c
lines 466-475): when `size + 2` exceeds the capacity, the buffer is
reallocated to double capacity (or to `MAX_LINE_LENGTH_BUFFER` when it
had none). -/
def Line.grow (l : Line) : Line :=
  if l.size + 2 > l.allocated then
    let newAllocated := if l.allocated = 0 then MAX_LINE_LENGTH_BUFFER else l.allocated * 2
    { chars := l.chars ++ List.replicate (newAllocated - l.chars.length) nulChar
      size := l.size
      allocated := newAllocated }
  else l

/-- Embeds `editor_line_insert_char` (src/main.c lines 463-483).  The
`memmove` shifts cells `at .. size` (content plus NUL) one cell to the
right, the new character is stored at `at`, `size` is incremented and
the cell at the new `size` is set to NUL. -/
def editor_line_insert_char (l : Line) (i : Int) (c : Char) : Line :=
  if i < 0 ∨ i > (l.size : Int) then l
  else
    let l := l.grow
    let a := i.toNat
    let shifted := l.chars.take a ++ c :: ((l.chars.drop a).take (l.size - a + 1))
      ++ l.chars.drop (l.size + 2)
    { chars := shifted.set (l.size + 1) nulChar
      size := l.size + 1
      allocated := l.allocated }

/-- Embeds `editor_line_delete_char` (src/main.c lines 491-499).  The
`memmove` shifts cells `at+1 .. size` one cell to the left, `size` is
decremented and the cell at the new `size` is set to NUL. -/
def editor_line_delete_char (l : Line) (i : Int) : Line :=
  if i < 0 ∨ i ≥ (l.size : Int) then l
  else
    let a := i.toNat
    let shifted := l.chars.take a ++ ((l.chars.drop (a + 1)).take (l.size - a))
      ++ l.chars.drop l.size
    { chars := shifted.set (l.size - 1) nulChar
      size := l.size - 1
      allocated := l.allocated }

/-- The line constructed by `editor_insert_line` (src/main.c lines
524-534): capacity is `MAX_LINE_LENGTH_BUFFER` unless the content needs
more, the content is copied in and a NUL terminator is written at
position `len`. -/
def mkLine (s : List Char) : Line :=
  let len := s.length
  let alloc := if len + 1 < MAX_LINE_LENGTH_BUFFER then MAX_LINE_LENGTH_BUFFER else len + 1
  { chars := s ++ nulChar :: List.replicate (alloc - (len + 1)) nulChar
    size := len
    allocated := alloc }

/-- Embeds `editor_insert_line` (src/main.c lines 508-538) at buffer
level: the guard rejects out-of-range indices before any mutation, and
an in-range insertion splices a freshly constructed line into the line
array.  The growth of the array of line structs and the dirty-flag
bookkeeping are document-level concerns handled by the document-level
embedding below. -/
def editor_insert_line (lines : List Line) (i : Int) (s : List Char) : List Line :=
  if i < 0 ∨ i > (lines.length : Int) then lines
  else lines.take i.toNat ++ mkLine s :: lines.drop i.toNat

end Buf

/-! ### Document-level editor model

Lines are represented by their content (the NUL-terminated prefix of the
line buffer), the standard abstraction of a C string.  `num_lines` of
the C state is always kept equal to the length of the `lines` array and
is therefore represented by `lines.length`.  Fields of `EditorState`
that the modelled operations never read or write (scrolling, screen
geometry, file name, status message, search state, recent files,
dirty-line redraw range) are omitted. -/

/-- The C enum `UndoType` (src/main.c lines 94-103). -/
inductive UndoType where
  | insertChar
  | deleteChar
  | insertEmptyLine
  | splitLine
  | joinLines
  | insertBlock
  | deleteBlock
  | modifyLineCase
deriving DecidableEq, Repr

/-- The C struct `UndoAction` (src/main.c lines 106-114).  The owned
`text_content` pointer is modelled as an optional character list (NULL
becomes `none`), and `text_len` is kept as a separate field exactly as
in the struct. -/
structure UndoAction where
  type : UndoType
  y : Int
  x : Int
  char_val : Char
  text_content : Option (List Char)
  text_len : Int
  num_lines_affected : Int
deriving DecidableEq, Repr

instance : Inhabited UndoAction :=
  ⟨{ type := .insertChar, y := 0, x := 0, char_val := nulChar,
     text_content := none, text_len := 0, num_lines_affected := 0 }⟩

/-- The modelled fields of the global C state `E` (src/main.c lines
123-180): the document, the cursor, the modified flag and the two
bounded histories (`undo_head` and `redo_head` are the lengths of the
corresponding lists; the oldest entry is the head of the list). -/
structure EditorState where
  lines : List (List Char)
  cursor_x : Int
  cursor_y : Int
  dirty : Bool
  undo_history : List UndoAction
  redo_history : List UndoAction
deriving DecidableEq, Repr

def MAX_UNDO_HISTORY : Nat := 100

/-- Content of line `y`, i.e. the C expression `E.lines[y]` (reads out
of range, undefined behaviour in C, return the empty line). -/
def lineAt (lines : List (List Char)) (y : Int) : List Char :=
  lines.getD y.toNat []

/-- Writing back line `y` after mutating it through the C pointer. -/
def setLineAt (lines : List (List Char)) (y : Int) (l : List Char) : List (List Char) :=
  lines.set y.toNat l

/-- Content-level image of `editor_line_insert_char` (src/main.c lines
463-483): the same bounds guard, then insertion of the character at the
index. -/
def lineInsertChar (l : List Char) (i : Int) (c : Char) : List Char :=
  if i < 0 ∨ i > (l.length : Int) then l
  else l.take i.toNat ++ c :: l.drop i.toNat

/-- Content-level image of `editor_line_delete_char` (src/main.c lines
491-499): the same bounds guard, then removal of the character at the
index. -/
def lineDeleteChar (l : List Char) (i : Int) : List Char :=
  if i < 0 ∨ i ≥ (l.length : Int) then l
  else l.take i.toNat ++ l.drop (i.toNat + 1)

/-- Embeds `editor_insert_line` (src/main.c lines 508-538) at document
level: the guard rejects out-of-range indices before any mutation; an
in-range insertion splices the new line content into the document,
increments the line count and sets the modified flag. -/
def editor_insert_line (s : EditorState) (i : Int) (txt : List Char) : EditorState :=
  if i < 0 ∨ i > (s.lines.length : Int) then s
  else { s with lines := s.lines.take i.toNat ++ txt :: s.lines.drop i.toNat, dirty := true }

/-- Embeds `editor_delete_line` (src/main.c lines 545-554): the guard
rejects out-of-range indices before any mutation; an in-range deletion
removes the line, decrements the line count and sets the modified
flag. -/
def editor_delete_line (s : EditorState) (i : Int) : EditorState :=
  if i < 0 ∨ i ≥ (s.lines.length : Int) then s
  else { s with lines := s.lines.eraseIdx i.toNat, dirty := true }

/-- Embeds `clear_redo_history` (src/main.c lines 2978-2983); freeing
the owned payloads has no content-level effect. -/
def clear_redo_history (s : EditorState) : EditorState :=
  { s with redo_history := [] }

/-- Embeds `push_undo_action` (src/main.c lines 2914-2941): when the
undo history is at capacity the oldest entry is evicted and the rest
shift down; the action (with a copied payload, which is the identity at
content level) is appended; the redo history is cleared.  The strdup
failure path is not modelled (allocation is assumed to succeed). -/
def push_undo_action (s : EditorState) (a : UndoAction) : EditorState :=
  let hist := if s.undo_history.length = MAX_UNDO_HISTORY then s.undo_history.tail
              else s.undo_history
  clear_redo_history { s with undo_history := hist ++ [a] }

/-- Embeds `push_redo_action` (src/main.c lines 2947-2973): identical to
`push_undo_action` except that the redo history is not cleared. -/
def push_redo_action (s : EditorState) (a : UndoAction) : EditorState :=
  let hist := if s.redo_history.length = MAX_UNDO_HISTORY then s.redo_history.tail
              else s.redo_history
  { s with redo_history := hist ++ [a] }

/-- Embeds `editor_insert_char` (src/main.c lines 563-574): push the
undo entry, create a line when the cursor sits past the last line,
insert the character at the cursor and advance the cursor. -/
def editor_insert_char (s : EditorState) (c : Char) : EditorState :=
  let s := push_undo_action s
    { type := .deleteChar, y := s.cursor_y, x := s.cursor_x, char_val := c,
      text_content := none, text_len := 0, num_lines_affected := 0 }
  let s := if s.cursor_y = (s.lines.length : Int) then
             editor_insert_line s (s.lines.length : Int) []
           else s
  let s := { s with
    lines := setLineAt s.lines s.cursor_y (lineInsertChar (lineAt s.lines s.cursor_y) s.cursor_x c) }
  { s with cursor_x := s.cursor_x + 1, dirty := true }

/-- Embeds `editor_delete_char` (src/main.c lines 582-630): no-op when
the cursor is past the last line or at the very start; backspace inside
a line deletes the previous character; backspace at column 0 joins the
line with the previous one (the C code leaves `cursor_x` at 0 in that
branch). -/
def editor_delete_char (s : EditorState) : EditorState :=
  if s.cursor_y = (s.lines.length : Int) then s
  else if s.cursor_x = 0 ∧ s.cursor_y = 0 then s
  else
    let line := lineAt s.lines s.cursor_y
    if s.cursor_x > 0 then
      let s := push_undo_action s
        { type := .insertChar, y := s.cursor_y, x := s.cursor_x - 1,
          char_val := line.getD (s.cursor_x - 1).toNat nulChar,
          text_content := none, text_len := 0, num_lines_affected := 0 }
      let s := { s with
        lines := setLineAt s.lines s.cursor_y (lineDeleteChar line (s.cursor_x - 1)),
        cursor_x := s.cursor_x - 1 }
      { s with dirty := true }
    else
      let prev := lineAt s.lines (s.cursor_y - 1)
      let s := push_undo_action s
        { type := .joinLines, y := s.cursor_y - 1, x := (prev.length : Int),
          char_val := nulChar, text_content := some line,
          text_len := (line.length : Int), num_lines_affected := 0 }
      let s := { s with lines := setLineAt s.lines (s.cursor_y - 1) (prev ++ line) }
      let s := editor_delete_line s s.cursor_y
      { s with cursor_y := s.cursor_y - 1, dirty := true }

/-- Embeds `editor_insert_newline` (src/main.c lines 637-676): at column
0 an empty line is inserted above; otherwise the tail of the current
line is split off into a freshly inserted next line and the current line
is truncated at the cursor column.  In both cases the cursor moves to
the start of the next row. -/
def editor_insert_newline (s : EditorState) : EditorState :=
  let s :=
    if s.cursor_x = 0 then
      let s := push_undo_action s
        { type := .insertEmptyLine, y := s.cursor_y, x := 0, char_val := nulChar,
          text_content := none, text_len := 0, num_lines_affected := 0 }
      editor_insert_line s s.cursor_y []
    else
      let splitOff := (lineAt s.lines s.cursor_y).drop s.cursor_x.toNat
      let s := push_undo_action s
        { type := .splitLine, y := s.cursor_y, x := s.cursor_x, char_val := nulChar,
          text_content := some splitOff, text_len := (splitOff.length : Int),
          num_lines_affected := 0 }
      let s := editor_insert_line s (s.cursor_y + 1) splitOff
      { s with lines := setLineAt s.lines s.cursor_y ((lineAt s.lines s.cursor_y).take s.cursor_x.toNat) }
  { s with cursor_y := s.cursor_y + 1, cursor_x := 0, dirty := true }

/-! ### Selection and block operations -/

/-- Splits a character list at newline separators, the way the segment
loop of `editor_insert_text_block` walks a C string with `strchr`:
the result always has at least one (possibly empty) segment, and a
trailing newline produces a trailing empty segment. -/
def splitNl : List Char → List (List Char)
  | [] => [[]]
  | c :: rest =>
      if c = '\n' then [] :: splitNl rest
      else
        match splitNl rest with
        | s :: ss => (c :: s) :: ss
        | [] => [[c]]

/-- One row of `get_selection_content` (src/main.c lines 2650-2656 and
2668-2678): the spanned substring of line `y`, with the end column
clamped up to the start column. -/
def selSegment (lines : List (List Char)) (sy sx ey ex y : Int) : List Char :=
  let line := lineAt lines y
  let startCol : Int := if y = sy then sx else 0
  let endCol : Int := if y = ey then ex else (line.length : Int)
  let endCol : Int := if endCol < startCol then startCol else endCol
  (line.drop startCol.toNat).take (endCol - startCol).toNat

/-- The row loop of `get_selection_content`: `cnt` rows starting at row
`y`, joined with a newline after every row but the last. -/
def selRows (lines : List (List Char)) (sy sx ey ex : Int) : Int → Nat → List Char
  | _, 0 => []
  | y, n + 1 =>
      selSegment lines sy sx ey ex y ++
        (if n = 0 then [] else '\n' :: selRows lines sy sx ey ex (y + 1) n)

/-- Embeds `get_selection_content` (src/main.c lines 2645-2681): NULL is
returned (modelled as `none`) for out-of-range rows and for an empty
extraction. -/
def get_selection_content (lines : List (List Char)) (sy sx ey ex : Int) :
    Option (List Char) :=
  if sy < 0 ∨ sy ≥ (lines.length : Int) ∨ ey < 0 ∨ ey ≥ (lines.length : Int) then none
  else
    let content := selRows lines sy sx ey ex sy (ey + 1 - sy).toNat
    if content = [] then none else some content

/-- The deletion loop of `editor_delete_text_block` (src/main.c lines
2310-2312): `editor_delete_line (sy+1)` repeated `ey - sy` times. -/
def deleteLinesRep (s : EditorState) (i : Int) : Nat → EditorState
  | 0 => s
  | n + 1 => deleteLinesRep (editor_delete_line s i) i n

/-- Embeds `editor_delete_text_block` (src/main.c lines 2280-2315):
out-of-range rows are rejected; a same-row range is spliced out of the
line; a multi-row range truncates the start line, appends the end
line's remainder and removes the lines in between together with the end
line. -/
def editor_delete_text_block (s : EditorState) (sy sx ey ex : Int) : EditorState :=
  if sy < 0 ∨ sy ≥ (s.lines.length : Int) ∨ ey < 0 ∨ ey ≥ (s.lines.length : Int) then s
  else if sy = ey then
    let line := lineAt s.lines sy
    { s with lines := setLineAt s.lines sy (line.take sx.toNat ++ line.drop ex.toNat) }
  else
    let startLine := lineAt s.lines sy
    let endLine := lineAt s.lines ey
    let s := { s with lines := setLineAt s.lines sy (startLine.take sx.toNat ++ endLine.drop ex.toNat) }
    deleteLinesRep s (sy + 1) (ey - sy).toNat

/-- Placement of one segment by `editor_insert_text_block` (src/main.c
lines 2220-2236): rows past the end of the document get a new line,
rows inside the document get the segment spliced into the existing line
at the current column. -/
def placeSegment (s : EditorState) (y x : Int) (seg : List Char) : EditorState :=
  if y ≥ (s.lines.length : Int) then editor_insert_line s y seg
  else
    let line := lineAt s.lines y
    { s with lines := setLineAt s.lines y (line.take x.toNat ++ seg ++ line.drop x.toNat) }

/-- The segment loop of `editor_insert_text_block` (src/main.c lines
2211-2246).  The loop stops at the terminating NUL, so a trailing empty
segment (after a trailing newline) is not placed; after a segment
followed by a newline the position moves to the start of the next row,
otherwise the column advances past the segment.  Returns the final
`(current_y, current_x)` with the updated document. -/
def insertSegments (s : EditorState) (y x : Int) :
    List (List Char) → EditorState × Int × Int
  | [] => (s, y, x)
  | [seg] =>
      if seg = [] then (s, y, x)
      else (placeSegment s y x seg, y, x + (seg.length : Int))
  | seg :: rest => insertSegments (placeSegment s y x seg) (y + 1) 0 rest

/-- Embeds `editor_insert_text_block` (src/main.c lines 2187-2269): when
the insertion point is strictly inside an existing line the tail of that
line is cut off and held back; the newline-separated segments of the
text are then placed row by row; finally the held-back tail is appended
to the row where placement ended. -/
def editor_insert_text_block (s : EditorState) (y x : Int) (text : List Char)
    (text_len : Int) : EditorState :=
  if text_len = 0 then s
  else
    let cut :=
      if y < (s.lines.length : Int) ∧ x < ((lineAt s.lines y).length : Int) then
        let line := lineAt s.lines y
        ({ s with lines := setLineAt s.lines y (line.take x.toNat) }, line.drop x.toNat)
      else (s, [])
    let s := cut.1
    let remainder := cut.2
    let placed := insertSegments s y x (splitNl text)
    let s := placed.1
    let cy := placed.2.1
    if remainder.length > 0 then
      if cy ≥ (s.lines.length : Int) then editor_insert_line s cy remainder
      else
        let line := lineAt s.lines cy
        { s with lines := setLineAt s.lines cy (line ++ remainder) }
    else s

/-! ### Undo and redo -/

/-- Length of the last newline-separated segment of a text payload, as
computed by the `last_line_start` scans in `editor_undo` (src/main.c
lines 3062-3070) and `editor_redo` (lines 3207-3215). -/
def lastSegLen (text : List Char) : Int :=
  (((splitNl text).getLastD []).length : Int)

/-- Embeds `editor_undo` (src/main.c lines 2988-3122): pop the most
recent undo entry, apply the per-type effect, reposition the cursor,
mark the document modified, and push the corresponding redo entry whose
row and column are the cursor position from before the undo. -/
def editor_undo (s0 : EditorState) : EditorState :=
  if s0.undo_history.length = 0 then s0
  else
    let ua := s0.undo_history.getLastD default
    let s := { s0 with undo_history := s0.undo_history.dropLast }
    let ocy := s.cursor_y
    let ocx := s.cursor_x
    let applied : EditorState × Option (List Char) × Int :=
      match ua.type with
      | .insertChar =>
          ({ s with lines := setLineAt s.lines ua.y (lineDeleteChar (lineAt s.lines ua.y) ua.x),
                    cursor_y := ua.y, cursor_x := ua.x }, none, 0)
      | .deleteChar =>
          ({ s with lines := setLineAt s.lines ua.y (lineInsertChar (lineAt s.lines ua.y) ua.x ua.char_val),
                    cursor_y := ua.y, cursor_x := ua.x + 1 }, none, 0)
      | .insertEmptyLine =>
          let s := editor_delete_line s ua.y
          let s := { s with cursor_y := ua.y, cursor_x := 0 }
          let s :=
            if (s.lines.length : Int) = 0 then
              let s := editor_insert_line s 0 []
              { s with cursor_y := 0, cursor_x := 0 }
            else if s.cursor_y ≥ (s.lines.length : Int) then
              { s with cursor_y := (s.lines.length : Int) - 1 }
            else s
          (s, none, 0)
      | .splitLine =>
          let lineToJoin := lineAt s.lines ua.y
          let nextLine := lineAt s.lines (ua.y + 1)
          let s := { s with lines := setLineAt s.lines ua.y (lineToJoin ++ nextLine) }
          let s := editor_delete_line s (ua.y + 1)
          ({ s with cursor_y := ua.y, cursor_x := ua.x }, none, 0)
      | .joinLines =>
          let s := editor_insert_line s (ua.y + 1) (ua.text_content.getD [])
          let s := { s with lines := setLineAt s.lines ua.y ((lineAt s.lines ua.y).take ua.x.toNat) }
          ({ s with cursor_y := ua.y + 1, cursor_x := 0 }, none, 0)
      | .insertBlock =>
          let ey := ua.y + ua.num_lines_affected - 1
          let ex := if ua.num_lines_affected = 1 then ua.x + ua.text_len
                    else lastSegLen (ua.text_content.getD [])
          let s := editor_delete_text_block s ua.y ua.x ey ex
          ({ s with cursor_y := ua.y, cursor_x := ua.x }, none, 0)
      | .deleteBlock =>
          let s := editor_insert_text_block s ua.y ua.x (ua.text_content.getD []) ua.text_len
          ({ s with cursor_y := ua.y, cursor_x := ua.x }, none, 0)
      | .modifyLineCase =>
          let payload := lineAt s.lines ua.y
          let s := { s with lines := setLineAt s.lines ua.y (ua.text_content.getD []) }
          ({ s with cursor_y := ua.y, cursor_x := ua.x }, some payload, (payload.length : Int))
    let s := { applied.1 with dirty := true }
    let redoUa : UndoAction :=
      match ua.type with
      | .insertChar =>
          { type := .deleteChar, y := ocy, x := ocx, char_val := ua.char_val,
            text_content := none, text_len := ua.text_len,
            num_lines_affected := ua.num_lines_affected }
      | .deleteChar =>
          { type := .insertChar, y := ocy, x := ocx, char_val := ua.char_val,
            text_content := none, text_len := ua.text_len,
            num_lines_affected := ua.num_lines_affected }
      | .insertEmptyLine =>
          { type := .insertEmptyLine, y := ocy, x := ocx, char_val := ua.char_val,
            text_content := none, text_len := 0, num_lines_affected := 0 }
      | .splitLine =>
          { type := .splitLine, y := ocy, x := ocx, char_val := ua.char_val,
            text_content := ua.text_content, text_len := ua.text_len,
            num_lines_affected := 0 }
      | .joinLines =>
          { type := .joinLines, y := ocy, x := ocx, char_val := ua.char_val,
            text_content := ua.text_content, text_len := ua.text_len,
            num_lines_affected := 0 }
      | .insertBlock =>
          { type := .insertBlock, y := ocy, x := ocx, char_val := ua.char_val,
            text_content := ua.text_content, text_len := ua.text_len,
            num_lines_affected := ua.num_lines_affected }
      | .deleteBlock =>
          { type := .deleteBlock, y := ocy, x := ocx, char_val := ua.char_val,
            text_content := ua.text_content, text_len := ua.text_len,
            num_lines_affected := ua.num_lines_affected }
      | .modifyLineCase =>
          { type := .modifyLineCase, y := ocy, x := ocx, char_val := ua.char_val,
            text_content := applied.2.1, text_len := applied.2.2,
            num_lines_affected := 1 }
    push_redo_action s redoUa

/-- Embeds `editor_redo` (src/main.c lines 3127-3261): pop the most
recent redo entry, apply the per-type effect, reposition the cursor,
mark the document modified, and push the corresponding undo entry (via
`push_undo_action`, which clears the redo history) whose row and column
are the cursor position from before the redo. -/
def editor_redo (s0 : EditorState) : EditorState :=
  if s0.redo_history.length = 0 then s0
  else
    let ra := s0.redo_history.getLastD default
    let s := { s0 with redo_history := s0.redo_history.dropLast }
    let ocy := s.cursor_y
    let ocx := s.cursor_x
    let applied : EditorState × Option (List Char) × Int :=
      match ra.type with
      | .insertChar =>
          ({ s with lines := setLineAt s.lines ra.y (lineInsertChar (lineAt s.lines ra.y) ra.x ra.char_val),
                    cursor_y := ra.y, cursor_x := ra.x + 1 }, none, 0)
      | .deleteChar =>
          ({ s with lines := setLineAt s.lines ra.y (lineDeleteChar (lineAt s.lines ra.y) ra.x),
                    cursor_y := ra.y, cursor_x := ra.x }, none, 0)
      | .insertEmptyLine =>
          let s := editor_insert_line s ra.y []
          ({ s with cursor_y := ra.y + 1, cursor_x := 0 }, none, 0)
      | .splitLine =>
          let line := lineAt s.lines ra.y
          let s := editor_insert_line s (ra.y + 1) (line.drop ra.x.toNat)
          let s := { s with lines := setLineAt s.lines ra.y ((lineAt s.lines ra.y).take ra.x.toNat) }
          ({ s with cursor_y := ra.y + 1, cursor_x := 0 }, none, 0)
      | .joinLines =>
          let prevLine := lineAt s.lines ra.y
          let lineToDelete := lineAt s.lines (ra.y + 1)
          let s := { s with lines := setLineAt s.lines ra.y (prevLine ++ lineToDelete) }
          let s := editor_delete_line s (ra.y + 1)
          ({ s with cursor_y := ra.y, cursor_x := ra.x }, none, 0)
      | .insertBlock =>
          let s := editor_insert_text_block s ra.y ra.x (ra.text_content.getD []) ra.text_len
          ({ s with cursor_y := ra.y, cursor_x := ra.x }, none, 0)
      | .deleteBlock =>
          let ey := ra.y + ra.num_lines_affected - 1
          let ex := if ra.num_lines_affected = 1 then ra.x + ra.text_len
                    else lastSegLen (ra.text_content.getD [])
          let s := editor_delete_text_block s ra.y ra.x ey ex
          ({ s with cursor_y := ra.y, cursor_x := ra.x }, none, 0)
      | .modifyLineCase =>
          let payload := lineAt s.lines ra.y
          let s := { s with lines := setLineAt s.lines ra.y (ra.text_content.getD []) }
          ({ s with cursor_y := ra.y, cursor_x := ra.x }, some payload, (payload.length : Int))
    let s := { applied.1 with dirty := true }
    let undoRa : UndoAction :=
      match ra.type with
      | .insertChar =>
          { type := .deleteChar, y := ocy, x := ocx, char_val := ra.char_val,
            text_content := none, text_len := ra.text_len,
            num_lines_affected := ra.num_lines_affected }
      | .deleteChar =>
          { type := .insertChar, y := ocy, x := ocx, char_val := ra.char_val,
            text_content := none, text_len := ra.text_len,
            num_lines_affected := ra.num_lines_affected }
      | .insertEmptyLine =>
          { type := .insertEmptyLine, y := ocy, x := ocx, char_val := ra.char_val,
            text_content := none, text_len := 0, num_lines_affected := 0 }
      | .splitLine =>
          { type := .splitLine, y := ocy, x := ocx, char_val := ra.char_val,
            text_content := ra.text_content, text_len := ra.text_len,
            num_lines_affected := 0 }
      | .joinLines =>
          { type := .joinLines, y := ocy, x := ocx, char_val := ra.char_val,
            text_content := ra.text_content, text_len := ra.text_len,
            num_lines_affected := 0 }
      | .insertBlock =>
          { type := .insertBlock, y := ocy, x := ocx, char_val := ra.char_val,
            text_content := ra.text_content, text_len := ra.text_len,
            num_lines_affected := ra.num_lines_affected }
      | .deleteBlock =>
          { type := .deleteBlock, y := ocy, x := ocx, char_val := ra.char_val,
            text_content := ra.text_content, text_len := ra.text_len,
            num_lines_affected := ra.num_lines_affected }
      | .modifyLineCase =>
          { type := .modifyLineCase, y := ocy, x := ocx, char_val := ra.char_val,
            text_content := applied.2.1, text_len := applied.2.2,
            num_lines_affected := 1 }
    push_undo_action s undoRa

/-! ### Incremental highlighter (src/main.c, update_highlighting) -/

/-- The C enum `HighlightType` (src/main.c lines 60-67). -/
inductive HighlightType where
  | normal
  | comment
  | string
  | number
  | operator
  | keyword
deriving DecidableEq, Repr

/-- Embeds `is_operator_char` (src/main.c lines 833-839). -/
def is_operator_char (c : Char) : Bool :=
  c == '+' || c == '-' || c == '*' || c == '/' || c == '%' ||
  c == '=' || c == '<' || c == '>' || c == '!' || c == '&' ||
  c == '|' || c == '^' || c == '~' || c == '?' || c == ':' ||
  c == ';' || c == ',' || c == '.' || c == '(' || c == ')' ||
  c == '[' || c == ']' || c == Char.ofNat 123 || c == Char.ofNat 125

/-- Embeds `is_double_operator` (src/main.c lines 848-867); the NUL test
on `str[index+1]` becomes a length test on the content. -/
def is_double_operator (chars : List Char) (i : Nat) : Bool :=
  if chars.length ≤ i + 1 then false
  else
    let c1 := chars.getD i nulChar
    let c2 := chars.getD (i + 1) nulChar
    (c1 == '=' && c2 == '=') || (c1 == '!' && c2 == '=') ||
    (c1 == '&' && c2 == '&') || (c1 == '|' && c2 == '|') ||
    (c1 == '+' && c2 == '+') || (c1 == '-' && c2 == '-') ||
    (c1 == '<' && c2 == '=') || (c1 == '>' && c2 == '=') ||
    (c1 == '<' && c2 == '<') || (c1 == '>' && c2 == '>') ||
    (c1 == '+' && c2 == '=') || (c1 == '-' && c2 == '=') ||
    (c1 == '*' && c2 == '=') || (c1 == '/' && c2 == '=') ||
    (c1 == '%' && c2 == '=') || (c1 == '&' && c2 == '=') ||
    (c1 == '|' && c2 == '=') || (c1 == '^' && c2 == '=') ||
    (c1 == '-' && c2 == '>')

/-- The tag-to-end-of-line loops of `update_highlighting` (the line
comment, hash comment and block-comment-opener branches): set `n` tags
starting at position `a`. -/
def setTagRange (hl : List HighlightType) (a : Nat) (t : HighlightType) :
    Nat → List HighlightType
  | 0 => hl
  | n + 1 => setTagRange (hl.set a t) (a + 1) t n

/-- The numeric-literal scan condition of `update_highlighting`
(src/main.c lines 971-976), at position `i` with the scan having started
at `start`. -/
def numScanCond (chars : List Char) (start i : Nat) : Bool :=
  let c := chars.getD i nulChar
  isdigitC c || c == '.' ||
  tolowerC c == 'x' ||
  (decide (start < i) && tolowerC (chars.getD (i - 1) nulChar) == 'x' && isxdigitC c) ||
  tolowerC c == 'e' || tolowerC c == 'f' ||
  (decide (start < i) &&
    (chars.getD (i - 1) nulChar == 'e' || chars.getD (i - 1) nulChar == 'E') &&
    (c == '+' || c == '-'))

/-- The numeric-literal scan loop of `update_highlighting` (src/main.c
lines 970-980): tags Number while the condition holds and returns the
tags with the position after the literal.  The fuel argument bounds the
iteration count and is always called with at least `chars.length - i`. -/
def numScan (chars : List Char) : Nat → Nat → Nat → List HighlightType →
    List HighlightType × Nat
  | 0, _, i, hl => (hl, i)
  | fuel + 1, start, i, hl =>
      if i < chars.length ∧ numScanCond chars start i then
        numScan chars fuel start (i + 1) (hl.set i .number)
      else (hl, i)

/-- Whether a word character (alphanumeric or underscore). -/
def isWordChar (c : Char) : Bool := isalnumC c || c == '_'

/-- The main character loop of `update_highlighting` (src/main.c lines
924-1018), as a recursion on the position `i` with a fuel argument that
bounds the iteration count (every iteration advances `i` by at least
one, so fuel `chars.length` suffices from position 0).  The state
mirrors the C locals: the tags built so far, the block-comment flag,
the string flag with its quote character, and the
first-word-highlighted flag.  Returns the final tags and the
block-comment state at the end of the line. -/
def hlLoop (chars : List Char) : Nat → Nat → List HighlightType → Bool → Bool →
    Char → Bool → List HighlightType × Bool
  | 0, _, hl, inComment, _, _, _ => (hl, inComment)
  | fuel + 1, i, hl, inComment, inString, quote, firstDone =>
      if i < chars.length then
        let c := chars.getD i nulChar
        if inComment then
          let hl := hl.set i .comment
          if c == '*' && decide (i + 1 < chars.length) && chars.getD (i + 1) nulChar == '/' then
            hlLoop chars fuel (i + 2) (hl.set (i + 1) .comment) false inString quote firstDone
          else
            hlLoop chars fuel (i + 1) hl true inString quote firstDone
        else if inString then
          let hl := hl.set i .string
          if c == '\\' && decide (i + 1 < chars.length) then
            hlLoop chars fuel (i + 2) (hl.set (i + 1) .string) inComment true quote firstDone
          else if c == quote then
            hlLoop chars fuel (i + 1) hl inComment false nulChar firstDone
          else
            hlLoop chars fuel (i + 1) hl inComment true quote firstDone
        else if c == Char.ofNat 39 || c == Char.ofNat 34 || c == Char.ofNat 96 then
          hlLoop chars fuel (i + 1) (hl.set i .string) inComment true c firstDone
        else if c == '/' && decide (i + 1 < chars.length) && chars.getD (i + 1) nulChar == '/' then
          (setTagRange hl i .comment (chars.length - i), inComment)
        else if c == '#' then
          (setTagRange hl i .comment (chars.length - i), inComment)
        else if c == '/' && decide (i + 1 < chars.length) && chars.getD (i + 1) nulChar == '*' then
          hlLoop chars fuel (i + 2) (setTagRange hl i .comment (chars.length - i)) true inString quote firstDone
        else if isdigitC c then
          let scanned := numScan chars (chars.length - i) i i hl
          hlLoop chars fuel scanned.2 scanned.1 inComment inString quote firstDone
        else if is_double_operator chars i then
          hlLoop chars fuel (i + 2) ((hl.set i .operator).set (i + 1) .operator) inComment inString quote firstDone
        else if is_operator_char c then
          hlLoop chars fuel (i + 1) (hl.set i .operator) inComment inString quote firstDone
        else if isWordChar c then
          let stop := i + ((chars.drop i).takeWhile isWordChar).length
          let tagged :=
            if !firstDone && (chars.take i).all isspaceC then
              (setTagRange hl i .keyword (stop - i), true)
            else (hl, firstDone)
          hlLoop chars fuel stop tagged.1 inComment inString quote tagged.2
        else
          hlLoop chars fuel (i + 1) hl inComment inString quote firstDone
      else (hl, inComment)

/-- Embeds `update_highlighting` (src/main.c lines 896-1021) on one
line: for a non-code document every character is Normal and the
block-comment state is forced off; for a code document the tags start
as Normal and the character loop runs from position 0 with the
block-comment state carried in from the previous line.  Returns the
tags and the block-comment state carried out to the next line. -/
def update_highlighting (is_code : Bool) (inComment : Bool) (chars : List Char) :
    List HighlightType × Bool :=
  if !is_code then (List.replicate chars.length .normal, false)
  else
    hlLoop chars chars.length 0 (List.replicate chars.length .normal)
      inComment false nulChar false

/-- Sequential highlighting of a document from the top (the full-redraw
path: `update_highlighting` is called on each line in order, threading
the block-comment state), starting from the given entry state. -/
def highlightLines (is_code : Bool) (st : Bool) :
    List (List Char) → List (List HighlightType) × Bool
  | [] => ([], st)
  | l :: ls =>
      let head := update_highlighting is_code st l
      let rest := highlightLines is_code head.2 ls
      (head.1 :: rest.1, rest.2)

/-- The block-comment state entering line `k` when the document is
re-highlighted sequentially from the top with the state reset to false
(the full-redraw path of the C code). -/
def entryState (is_code : Bool) (doc : List (List Char)) (k : Nat) : Bool :=
  (highlightLines is_code false (doc.take k)).2

/-- A line contains no block-comment closing marker: no adjacent pair
of characters star slash. -/
def noCloser (chars : List Char) : Prop :=
  ∀ i : Nat, ¬(chars.getD i nulChar = '*' ∧ chars.getD (i + 1) nulChar = '/')

instance instDecNoCloser (chars : List Char) : Decidable (noCloser chars) :=
  decidable_of_iff
    (∀ i : Nat, i < chars.length →
      ¬(chars.getD i nulChar = '*' ∧ chars.getD (i + 1) nulChar = '/'))
    (by
      constructor
      · intro hbnd i
        by_cases hi : i < chars.length
        · exact hbnd i hi
        · intro hcontra
          have h0 : chars.getD i nulChar = nulChar := by
            apply List.getD_eq_default
            omega
          rw [h0] at hcontra
          have hne : nulChar ≠ '*' := by decide
          exact hne hcontra.1
      · intro hall i _
        exact hall i)

/-! ### Command sequence machine (src/main.c, the Command Puzzle System)

The modelled state is the command-machine component of the global C
state: the `CommandState` struct fields (the collected sequence with its
length, the last-activity timestamp, the active flag and the help flag),
the `creative_mode` flag and the macro table.  The document-side effects
of the editor operations dispatched by a committed command are outside
this component.  Time is passed in explicitly as the current clock
value; the prompt collaborator (external I/O) is passed in as its
result, `none` for a cancelled prompt. -/

def MAX_COMMAND_SEQUENCE_LENGTH : Nat := 10
def MAX_MACROS : Nat := 50
def MAX_MACRO_ACTION_LENGTH : Nat := 50

structure CommandEditorState where
  cmd_sequence : List Char
  cmd_last_key_time : Int
  cmd_active : Bool
  cmd_show_help : Bool
  creative_mode : Bool
  macros : List (List Char × List Char)
deriving DecidableEq, Repr

/-- Embeds `reset_command_mode` (src/main.c lines 1582-1590). -/
def reset_command_mode (e : CommandEditorState) : CommandEditorState :=
  { e with cmd_sequence := [], cmd_active := false, cmd_last_key_time := 0,
           cmd_show_help := false, creative_mode := false }

/-- Embeds `enter_creative_mode` (src/main.c lines 2464-2494): rejected
at the macro-table bound or for an empty sequence; otherwise the
creative flag is raised, the external prompt is consulted, a successful
prompt records the macro (both components truncated as by `strncpy`),
and the command mode is reset. -/
def enter_creative_mode (e : CommandEditorState) (promptResult : Option (List Char)) :
    CommandEditorState :=
  if MAX_MACROS ≤ e.macros.length then reset_command_mode e
  else if e.cmd_sequence.length = 0 then reset_command_mode e
  else
    let e := { e with creative_mode := true }
    let e :=
      match promptResult with
      | some action =>
          { e with macros := e.macros ++
              [(e.cmd_sequence.take (MAX_COMMAND_SEQUENCE_LENGTH - 1),
                action.take (MAX_MACRO_ACTION_LENGTH - 1))] }
      | none => e
    reset_command_mode e

/-- Case-insensitive equality of two C strings (`strcasecmp` returning
zero), at content level. -/
def ciEq (a b : List Char) : Bool := (a.map tolowerC) == (b.map tolowerC)

/-- Case-insensitive prefix test (`strncasecmp(cmd, seq, len) == 0`
with `len` the length of `seq`): a command name shorter than the
sequence fails on its NUL terminator, which the `take` captures. -/
def ciPrefixOf (seq cmd : List Char) : Bool :=
  ((cmd.take seq.length).map tolowerC) == (seq.map tolowerC)

/-- The autocompletion table of `autocomplete_command` (src/main.c lines
1823-1829), in order, including the duplicated R entry. -/
def AUTOCOMPLETE_COMMANDS : List (List Char) :=
  [['S'], ['S', 'A'], ['F'], ['F', 'N'], ['F', 'P'], ['R'], ['G'], ['L', 'N'],
   ['D', 'U'], ['U', 'L'], ['L', 'L'], ['D', 'L'], ['Q', 'W'], ['I'], ['R'],
   ['K', 'N'], ['T', 'C'], ['C', 'T'], ['Z'], ['Y'],
   ['h'], ['j'], ['k'], ['l']]

/-- Embeds `autocomplete_command` (src/main.c lines 1822-1841): the
first table entry that the current sequence is a case-insensitive
prefix of replaces the sequence; otherwise only a status message is
shown. -/
def autocomplete_command (e : CommandEditorState) : CommandEditorState :=
  match AUTOCOMPLETE_COMMANDS.find? (fun cmd => ciPrefixOf e.cmd_sequence cmd) with
  | some cmd => { e with cmd_sequence := cmd }
  | none => e

/-- The built-in sequences recognized case-insensitively by
`execute_command_sequence` (src/main.c lines 1633-1748 and 1759-1761):
every one of these branches dispatches an editor operation and resets
the command mode. -/
def EXEC_BUILTIN_COMMANDS : List (List Char) :=
  [['K', 'N'], ['T', 'C'], ['C', 'T'], ['h'], ['j'], ['k'], ['l'], ['I'],
   ['F', 'N'], ['F', 'P'], ['D', 'U'], ['D', 'L'], ['U', 'L'], ['L', 'L'],
   ['L', 'N'], ['R'], ['Z'], ['Y'], ['S'], ['S', 'A'], ['F'], ['Q', 'W']]

/-- Command-state projection of `execute_command_sequence` (src/main.c
lines 1619-1765).  The document-side effects of the dispatched editor
operations are not part of the modelled state: an empty sequence and an
unrecognized sequence only report a status message; the double-colon
sequence delegates to `enter_creative_mode`; the question mark toggles
the help flag; every other recognized branch (built-in, exact macro
match, or the force-quit) resets the command mode. -/
def execute_command_sequence (e : CommandEditorState)
    (promptResult : Option (List Char)) : CommandEditorState :=
  if e.cmd_sequence.length = 0 then e
  else if e.cmd_sequence = [':', ':'] then enter_creative_mode e promptResult
  else if e.cmd_sequence = ['?'] then { e with cmd_show_help := !e.cmd_show_help }
  else if EXEC_BUILTIN_COMMANDS.any (fun cmd => ciEq e.cmd_sequence cmd) ∨
          e.macros.any (fun m => m.1 = e.cmd_sequence) then
    reset_command_mode e
  else e

/-- The ncurses and ASCII key codes used by `handle_command_mode_input`. -/
def KEY_ENTER_CODE : Int := 343
def KEY_BACKSPACE_CODE : Int := 263
def KEY_ESC_CODE : Int := 27
def KEY_DEL_CODE : Int := 127
def KEY_NEWLINE_CODE : Int := 10
def KEY_TAB_CODE : Int := 9
def KEY_COLON_CODE : Int := 58

/-- Embeds `handle_command_mode_input` (src/main.c lines 1772-1817).
The current clock value `now` replaces the `time(NULL)` calls; the C
timeout comparison `now - last > 1.5` on doubles with integer operands
is the integer condition `2 * (now - last) > 3`.  In order: the
timeout check, the colon shortcut into creative mode, Tab
autocompletion, appending a printable key under the length bound,
committing with Enter, backspace (removing the last character, or
leaving command mode when the sequence is already empty), Escape, and
the fallback that only refreshes the activity timestamp. -/
def handle_command_mode_input (e : CommandEditorState) (now : Int) (key : Int)
    (promptResult : Option (List Char)) : CommandEditorState :=
  if 2 * (now - e.cmd_last_key_time) > 3 then reset_command_mode e
  else if key = KEY_COLON_CODE ∧ e.cmd_sequence.length > 0 then
    enter_creative_mode e promptResult
  else if key = KEY_TAB_CODE then
    { autocomplete_command e with cmd_last_key_time := now }
  else if isprintI key ∧ e.cmd_sequence.length < MAX_COMMAND_SEQUENCE_LENGTH - 1 then
    { e with cmd_sequence := e.cmd_sequence ++ [Char.ofNat key.toNat],
             cmd_last_key_time := now }
  else if key = KEY_ENTER_CODE ∨ key = KEY_NEWLINE_CODE then
    reset_command_mode (execute_command_sequence e promptResult)
  else if key = KEY_BACKSPACE_CODE ∨ key = KEY_DEL_CODE then
    if e.cmd_sequence.length > 0 then
      { e with cmd_sequence := e.cmd_sequence.dropLast, cmd_last_key_time := now }
    else reset_command_mode e
  else if key = KEY_ESC_CODE then reset_command_mode e
  else { e with cmd_last_key_time := now }

/-! ### Concrete scenarios for the undo/redo and block round-trip claims -/

/-- The degraded initial document: a single empty line, cursor at the
origin, clean, with empty histories. -/
def initialState : EditorState :=
  { lines := [[]], cursor_x := 0, cursor_y := 0, dirty := false,
    undo_history := [], redo_history := [] }

/-- Reachable state: type the characters b and c into the initial
document. -/
def c1Typed : EditorState := editor_insert_char (editor_insert_char initialState 'b') 'c'

/-- Reachable state: press the Left arrow twice, which moves only the
cursor (editor_move_cursor changes no other field). -/
def c1Moved : EditorState := { c1Typed with cursor_x := 0 }

/-- Reachable state: type the character a at the start of the line, so
the document is abc with the cursor at column 1. -/
def c1BeforeUndo : EditorState := editor_insert_char c1Moved 'a'

/-- Document for the block round-trip claim: four lines aaa bbb ccc
ddd, with the normalized selection (0,1) to (2,1). -/
def c2State : EditorState :=
  { lines := ['a', 'a', 'a'] :: ['b', 'b', 'b'] :: ['c', 'c', 'c'] :: ['d', 'd', 'd'] :: [],
    cursor_x := 1, cursor_y := 2, dirty := false,
    undo_history := [], redo_history := [] }

/-- A sample well-formed buffer line (content hi) used by witnesses. -/
def sampleBufLine : Buf.Line := Buf.mkLine ['h', 'i']

/-- A sample command-machine state used by the command-machine claims:
active, with the single collected character A and a fresh timestamp. -/
def sampleCmdState : CommandEditorState :=
  { cmd_sequence := ['A'], cmd_last_key_time := 0, cmd_active := true,
    cmd_show_help := false, creative_mode := false, macros := [] }

/-- A sample three-line code document whose block comment opens on line
0 and first closes on line 2, with a quote character inside the comment
on line 1. -/
def sampleCommentDoc : List (List Char) :=
  [['/', '*'], ['a', Char.ofNat 34, 'b'], ['*', '/', 'x']]

/-!
## Theorems

One theorem per claim of CLAIMS.json, with witnesses for the theorems
that carry hypotheses, preceded by the helper lemmas they share.
-/

/-- C1: undo immediately followed by redo is NOT a no-op after a
character insertion.  Before the undo the document is the single line
abc with the cursor at (0, 1); `editor_undo` re-inserts the typed
character instead of removing it (the per-type handlers for the two
character actions are applied in the wrong direction relative to the
push sites), and `editor_redo` inserts it once more at the pre-undo
cursor column, leaving the line aaabc with the cursor at (0, 2). -/
theorem c1_undo_redo_not_noop :
    c1BeforeUndo.lines = [['a', 'b', 'c']] ∧
    c1BeforeUndo.cursor_y = 0 ∧ c1BeforeUndo.cursor_x = 1 ∧
    (editor_redo (editor_undo c1BeforeUndo)).lines = [['a', 'a', 'a', 'b', 'c']] ∧
    (editor_redo (editor_undo c1BeforeUndo)).cursor_y = 0 ∧
    (editor_redo (editor_undo c1BeforeUndo)).cursor_x = 2 ∧
    (editor_redo (editor_undo c1BeforeUndo)).lines ≠ c1BeforeUndo.lines := by
  decide

/-- C2: extracting the range (0,1)-(2,1), deleting it, and re-inserting
the extracted text at (0,1) does NOT reconstruct the document: the
segment loop of `editor_insert_text_block` splices interior segments
into the existing following lines instead of inserting them as new
lines, so the line ddd is merged into bbb and the line count drops from
4 to 3. -/
theorem c2_block_round_trip_fails :
    get_selection_content c2State.lines 0 1 2 1 =
      some (['a', 'a', '\n', 'b', 'b', 'b', '\n', 'c']) ∧
    (editor_insert_text_block (editor_delete_text_block c2State 0 1 2 1) 0 1
        (['a', 'a', '\n', 'b', 'b', 'b', '\n', 'c']) 8).lines =
      ['a', 'a', 'a'] :: ['b', 'b', 'b', 'd', 'd', 'd'] :: ['c', 'c', 'c'] :: [] ∧
    (editor_insert_text_block (editor_delete_text_block c2State 0 1 2 1) 0 1
        (['a', 'a', '\n', 'b', 'b', 'b', '\n', 'c']) 8).lines ≠ c2State.lines := by
  decide

/-- C3: after every `push_undo_action` the redo history is empty and
the undo history holds at most `MAX_UNDO_HISTORY` entries; a push onto
a full history evicts the oldest entry, keeping the rest in order with
the new action last, and a push onto a non-full history simply appends. -/
theorem c3_push_undo_action_spec (s : EditorState) (a : UndoAction)
    (h : s.undo_history.length ≤ MAX_UNDO_HISTORY) :
    (push_undo_action s a).redo_history = [] ∧
    (push_undo_action s a).undo_history.length ≤ MAX_UNDO_HISTORY ∧
    (s.undo_history.length = MAX_UNDO_HISTORY →
      (push_undo_action s a).undo_history = s.undo_history.tail ++ [a]) ∧
    (s.undo_history.length < MAX_UNDO_HISTORY →
      (push_undo_action s a).undo_history = s.undo_history ++ [a]) := by
  have hM : MAX_UNDO_HISTORY = 100 := rfl
  have hpush : (push_undo_action s a).undo_history =
      (if s.undo_history.length = MAX_UNDO_HISTORY then s.undo_history.tail
       else s.undo_history) ++ [a] := by
    simp [push_undo_action, clear_redo_history]
  have hredo : (push_undo_action s a).redo_history = [] := by
    simp [push_undo_action, clear_redo_history]
  refine ⟨hredo, ?_, ?_, ?_⟩
  · rw [hpush]
    split_ifs with hc
    · simp only [List.length_append, List.length_tail, List.length_cons,
        List.length_nil]
      omega
    · simp only [List.length_append, List.length_cons, List.length_nil]
      omega
  · intro hc
    rw [hpush, if_pos hc]
  · intro hlt
    rw [hpush, if_neg (by omega)]

/-- Witness for C3 at the initial state and a default action. -/
theorem c3_push_undo_action_spec_witness :
    initialState.undo_history.length ≤ MAX_UNDO_HISTORY ∧
    ((push_undo_action initialState default).redo_history = [] ∧
     (push_undo_action initialState default).undo_history.length ≤ MAX_UNDO_HISTORY ∧
     (initialState.undo_history.length = MAX_UNDO_HISTORY →
       (push_undo_action initialState default).undo_history =
         initialState.undo_history.tail ++ [default]) ∧
     (initialState.undo_history.length < MAX_UNDO_HISTORY →
       (push_undo_action initialState default).undo_history =
         initialState.undo_history ++ [default])) :=
  ⟨by decide, c3_push_undo_action_spec initialState default (by decide)⟩

/-- C4: selection normalization is symmetric in its two endpoints, and
the normalized result is ordered: the start precedes the end in
document order, with row ties broken by column. -/
theorem c4_normalize_symmetric_and_ordered (ay ax cy cx : Int) :
    get_normalized_selection_coords ay ax cy cx =
      get_normalized_selection_coords cy cx ay ax ∧
    ((get_normalized_selection_coords ay ax cy cx).sy <
        (get_normalized_selection_coords ay ax cy cx).ey ∨
     ((get_normalized_selection_coords ay ax cy cx).sy =
        (get_normalized_selection_coords ay ax cy cx).ey ∧
      (get_normalized_selection_coords ay ax cy cx).sx ≤
        (get_normalized_selection_coords ay ax cy cx).ex)) := by
  unfold get_normalized_selection_coords
  split_ifs <;> simp_all [SelCoords.mk.injEq] <;> omega

/-- C9: `editor_delete_char` with the cursor past the last line, or at
the very start of the document, is a complete no-op: the state, hence
the document, cursor, modified flag and both histories, is returned
unchanged and nothing is pushed. -/
theorem c9_delete_char_noop (s : EditorState)
    (h : s.cursor_y = (s.lines.length : Int) ∨ (s.cursor_x = 0 ∧ s.cursor_y = 0)) :
    editor_delete_char s = s := by
  unfold editor_delete_char
  rcases h with h | ⟨h1, h2⟩
  · simp [h]
  · by_cases hy : s.cursor_y = (s.lines.length : Int) <;> simp [hy, h1, h2]

/-- Witness for C9 at the initial state, whose cursor is at the origin. -/
theorem c9_delete_char_noop_witness :
    (initialState.cursor_y = (initialState.lines.length : Int) ∨
      (initialState.cursor_x = 0 ∧ initialState.cursor_y = 0)) ∧
    editor_delete_char initialState = initialState :=
  ⟨by decide, c9_delete_char_noop initialState (by decide)⟩

/-- C7: every out-of-range index argument is rejected before any
mutation: character insertion past the size or at a negative index,
character deletion at or past the size or at a negative index, line
insertion past the line count or at a negative index, and line deletion
at or past the line count or at a negative index, each return their
input completely unchanged. -/
theorem c7_out_of_range_rejected_before_mutation :
    (∀ (l : Buf.Line) (i : Int) (c : Char), i < 0 ∨ i > (l.size : Int) →
      Buf.editor_line_insert_char l i c = l) ∧
    (∀ (l : Buf.Line) (i : Int), i < 0 ∨ i ≥ (l.size : Int) →
      Buf.editor_line_delete_char l i = l) ∧
    (∀ (s : EditorState) (i : Int) (txt : List Char),
      i < 0 ∨ i > (s.lines.length : Int) → editor_insert_line s i txt = s) ∧
    (∀ (s : EditorState) (i : Int), i < 0 ∨ i ≥ (s.lines.length : Int) →
      editor_delete_line s i = s) := by
  refine ⟨?_, ?_, ?_, ?_⟩
  · intro l i c h
    unfold Buf.editor_line_insert_char
    simp [h]
  · intro l i h
    unfold Buf.editor_line_delete_char
    simp [h]
  · intro s i txt h
    unfold editor_insert_line
    simp [h]
  · intro s i h
    unfold editor_delete_line
    simp [h]

/-- Witness for C7 at a two-character line and a one-line document,
with a negative index and an index one past the valid range for each
of the four operations. -/
theorem c7_out_of_range_rejected_before_mutation_witness :
    (((-1 : Int) < 0 ∨ (-1 : Int) > (sampleBufLine.size : Int)) ∧
      Buf.editor_line_insert_char sampleBufLine (-1) 'z' = sampleBufLine) ∧
    (((2 : Int) < 0 ∨ (2 : Int) ≥ (sampleBufLine.size : Int)) ∧
      Buf.editor_line_delete_char sampleBufLine 2 = sampleBufLine) ∧
    (((2 : Int) < 0 ∨ (2 : Int) > (initialState.lines.length : Int)) ∧
      editor_insert_line initialState 2 ['q'] = initialState) ∧
    (((1 : Int) < 0 ∨ (1 : Int) ≥ (initialState.lines.length : Int)) ∧
      editor_delete_line initialState 1 = initialState) :=
  ⟨⟨by decide, c7_out_of_range_rejected_before_mutation.1 sampleBufLine (-1) 'z' (by decide)⟩,
   ⟨by decide, c7_out_of_range_rejected_before_mutation.2.1 sampleBufLine 2 (by decide)⟩,
   ⟨by decide, c7_out_of_range_rejected_before_mutation.2.2.1 initialState 2 ['q'] (by decide)⟩,
   ⟨by decide, c7_out_of_range_rejected_before_mutation.2.2.2 initialState 1 (by decide)⟩⟩

/-- C8 counterexample: pressing Backspace with exactly one collected
character empties the sequence but does NOT return the machine to the
Idle state: the active flag stays raised.  Only a further Backspace on
the already-empty sequence resets the mode. -/
theorem c8_backspace_empty_not_idle_cex :
    (handle_command_mode_input sampleCmdState 0 KEY_BACKSPACE_CODE none).cmd_sequence = [] ∧
    (handle_command_mode_input sampleCmdState 0 KEY_BACKSPACE_CODE none).cmd_active = true := by
  decide

/-- C8 as amended: with no timeout pending, Backspace on a sequence of
length at least one removes exactly the last character and leaves the
active flag unchanged (the machine stays in the collecting state even
when the sequence becomes empty); when the removal emptied the
sequence, a further Backspace resets the command mode to Idle. -/
theorem c8_backspace_removes_last_and_stays_active (e : CommandEditorState) (now : Int)
    (htime : 2 * (now - e.cmd_last_key_time) ≤ 3)
    (hlen : 1 ≤ e.cmd_sequence.length) :
    (handle_command_mode_input e now KEY_BACKSPACE_CODE none).cmd_sequence =
      e.cmd_sequence.dropLast ∧
    (handle_command_mode_input e now KEY_BACKSPACE_CODE none).cmd_active =
      e.cmd_active ∧
    (e.cmd_sequence.length = 1 →
      handle_command_mode_input (handle_command_mode_input e now KEY_BACKSPACE_CODE none)
          now KEY_BACKSPACE_CODE none =
        reset_command_mode (handle_command_mode_input e now KEY_BACKSPACE_CODE none)) := by
  have h1 : ¬(2 * (now - e.cmd_last_key_time) > 3) := by omega
  have h2 : ¬isprintI KEY_BACKSPACE_CODE := by decide
  have h3 : ¬(KEY_BACKSPACE_CODE = KEY_COLON_CODE) := by decide
  have h4 : ¬(KEY_BACKSPACE_CODE = KEY_TAB_CODE) := by decide
  have h5 : ¬(KEY_BACKSPACE_CODE = KEY_ENTER_CODE ∨ KEY_BACKSPACE_CODE = KEY_NEWLINE_CODE) := by
    decide
  have hpos : e.cmd_sequence.length > 0 := hlen
  have hstep : handle_command_mode_input e now KEY_BACKSPACE_CODE none =
      { e with cmd_sequence := e.cmd_sequence.dropLast, cmd_last_key_time := now } := by
    unfold handle_command_mode_input
    rw [if_neg h1, if_neg (by tauto), if_neg h4, if_neg (by tauto), if_neg h5,
      if_pos (Or.inl rfl), if_pos hpos]
  refine ⟨by rw [hstep], by rw [hstep], ?_⟩
  intro hone
  have hempty : e.cmd_sequence.dropLast = [] := by
    have hl : e.cmd_sequence.dropLast.length = 0 := by
      rw [List.length_dropLast, hone]
    exact List.eq_nil_of_length_eq_zero hl
  rw [hstep]
  set r : CommandEditorState :=
    { e with cmd_sequence := e.cmd_sequence.dropLast, cmd_last_key_time := now } with hr
  have hrt : r.cmd_last_key_time = now := rfl
  have hrs : r.cmd_sequence = [] := hempty
  unfold handle_command_mode_input
  rw [if_neg (by rw [hrt]; omega), if_neg (fun hk => h3 hk.1), if_neg h4,
    if_neg (fun hk => h2 hk.1), if_neg h5, if_pos (Or.inl rfl),
    if_neg (by rw [hrs]; simp)]

/-- Witness for C8 as amended, at the sample command state with one
collected character. -/
theorem c8_backspace_removes_last_and_stays_active_witness :
    2 * ((0 : Int) - sampleCmdState.cmd_last_key_time) ≤ 3 ∧
    1 ≤ sampleCmdState.cmd_sequence.length ∧
    ((handle_command_mode_input sampleCmdState 0 KEY_BACKSPACE_CODE none).cmd_sequence =
      sampleCmdState.cmd_sequence.dropLast ∧
    (handle_command_mode_input sampleCmdState 0 KEY_BACKSPACE_CODE none).cmd_active =
      sampleCmdState.cmd_active ∧
    (sampleCmdState.cmd_sequence.length = 1 →
      handle_command_mode_input
          (handle_command_mode_input sampleCmdState 0 KEY_BACKSPACE_CODE none)
          0 KEY_BACKSPACE_CODE none =
        reset_command_mode
          (handle_command_mode_input sampleCmdState 0 KEY_BACKSPACE_CODE none))) :=
  ⟨by decide, by decide,
   c8_backspace_removes_last_and_stays_active sampleCmdState 0 (by decide) (by decide)⟩

/-! Helper lemmas shared by the remaining theorems. -/

theorem getD_set_self {α : Type} (l : List α) (n : Nat) (d : α) :
    (l.set n d).getD n d = d := by
  induction l generalizing n with
  | nil => simp [List.getD]
  | cons a t ih =>
      cases n with
      | zero => simp [List.getD]
      | succ m => simpa [List.getD] using ih m

theorem getD_append_length {α : Type} (A : List α) (x : α) (B : List α) (d : α) :
    (A ++ x :: B).getD A.length d = x := by
  induction A with
  | nil => simp [List.getD]
  | cons a t ih => simpa [List.getD] using ih

theorem grow_size (l : Buf.Line) : l.grow.size = l.size := by
  unfold Buf.Line.grow
  split_ifs <;> rfl

theorem grow_alloc (l : Buf.Line) (h : l.size < l.allocated) :
    l.size + 2 ≤ l.grow.allocated := by
  have hM : Buf.MAX_LINE_LENGTH_BUFFER = 256 := rfl
  unfold Buf.Line.grow
  split_ifs with h1 h2
  · simp_all
  · simp_all
    omega
  · omega

/-- C10: the three line-buffer mutations keep the NUL terminator in
lockstep with the recorded size and keep the size strictly below the
capacity: after `editor_line_insert_char` and `editor_line_delete_char`
on a well-formed line, and for the line freshly created by
`editor_insert_line`, the cell at index `size` is NUL and
`size < allocated`. -/
theorem c10_mutations_preserve_nul_and_capacity :
    (∀ (l : Buf.Line) (i : Int) (c : Char), l.WF →
      (Buf.editor_line_insert_char l i c).chars.getD
          (Buf.editor_line_insert_char l i c).size nulChar = nulChar ∧
      (Buf.editor_line_insert_char l i c).size <
          (Buf.editor_line_insert_char l i c).allocated) ∧
    (∀ (l : Buf.Line) (i : Int), l.WF →
      (Buf.editor_line_delete_char l i).chars.getD
          (Buf.editor_line_delete_char l i).size nulChar = nulChar ∧
      (Buf.editor_line_delete_char l i).size <
          (Buf.editor_line_delete_char l i).allocated) ∧
    (∀ (lines : List Buf.Line) (i : Int) (s : List Char),
      0 ≤ i → i ≤ (lines.length : Int) →
      ((Buf.editor_insert_line lines i s).getD i.toNat (Buf.mkLine [])).chars.getD
          ((Buf.editor_insert_line lines i s).getD i.toNat (Buf.mkLine [])).size nulChar
        = nulChar ∧
      ((Buf.editor_insert_line lines i s).getD i.toNat (Buf.mkLine [])).size <
        ((Buf.editor_insert_line lines i s).getD i.toNat (Buf.mkLine [])).allocated) := by
  refine ⟨?_, ?_, ?_⟩
  · intro l i c hwf
    obtain ⟨hlen, hsz, hnul⟩ := hwf
    unfold Buf.editor_line_insert_char
    split_ifs with hguard
    · exact ⟨hnul, hsz⟩
    · refine ⟨getD_set_self _ _ _, ?_⟩
      have h1 := grow_size l
      have h2 := grow_alloc l hsz
      simp only
      omega
  · intro l i hwf
    obtain ⟨hlen, hsz, hnul⟩ := hwf
    unfold Buf.editor_line_delete_char
    split_ifs with hguard
    · exact ⟨hnul, hsz⟩
    · refine ⟨getD_set_self _ _ _, ?_⟩
      simp only
      omega
  · intro lines i s h0 hle
    have hguard : ¬(i < 0 ∨ i > (lines.length : Int)) := by omega
    unfold Buf.editor_insert_line
    rw [if_neg hguard]
    have htk : (lines.take i.toNat).length = i.toNat := by
      rw [List.length_take]
      omega
    have hmid : (lines.take i.toNat ++ Buf.mkLine s :: lines.drop i.toNat).getD i.toNat
        (Buf.mkLine []) = Buf.mkLine s := by
      have hg := getD_append_length (lines.take i.toNat) (Buf.mkLine s)
        (lines.drop i.toNat) (Buf.mkLine [])
      rwa [htk] at hg
    rw [hmid]
    have hM : Buf.MAX_LINE_LENGTH_BUFFER = 256 := rfl
    constructor
    · show (Buf.mkLine s).chars.getD (Buf.mkLine s).size nulChar = nulChar
      unfold Buf.mkLine
      simp only
      exact getD_append_length s nulChar _ nulChar
    · show (Buf.mkLine s).size < (Buf.mkLine s).allocated
      unfold Buf.mkLine
      simp only
      split_ifs <;> omega

set_option maxRecDepth 4000 in
/-- Witness for C10 at a well-formed two-character line (for the two
character mutations, at index 1) and a one-element line list (for the
line insertion, at index 1). -/
theorem c10_mutations_preserve_nul_and_capacity_witness :
    sampleBufLine.WF ∧
    ((Buf.editor_line_insert_char sampleBufLine 1 'z').chars.getD
        (Buf.editor_line_insert_char sampleBufLine 1 'z').size nulChar = nulChar ∧
     (Buf.editor_line_insert_char sampleBufLine 1 'z').size <
        (Buf.editor_line_insert_char sampleBufLine 1 'z').allocated) ∧
    ((Buf.editor_line_delete_char sampleBufLine 1).chars.getD
        (Buf.editor_line_delete_char sampleBufLine 1).size nulChar = nulChar ∧
     (Buf.editor_line_delete_char sampleBufLine 1).size <
        (Buf.editor_line_delete_char sampleBufLine 1).allocated) ∧
    (((Buf.editor_insert_line [sampleBufLine] 1 ['o', 'k']).getD 1 (Buf.mkLine [])).chars.getD
        ((Buf.editor_insert_line [sampleBufLine] 1 ['o', 'k']).getD 1 (Buf.mkLine [])).size nulChar
      = nulChar ∧
     ((Buf.editor_insert_line [sampleBufLine] 1 ['o', 'k']).getD 1 (Buf.mkLine [])).size <
       ((Buf.editor_insert_line [sampleBufLine] 1 ['o', 'k']).getD 1 (Buf.mkLine [])).allocated) :=
  ⟨⟨by decide, by decide, by decide⟩,
   c10_mutations_preserve_nul_and_capacity.1 sampleBufLine 1 'z'
     ⟨by decide, by decide, by decide⟩,
   c10_mutations_preserve_nul_and_capacity.2.1 sampleBufLine 1
     ⟨by decide, by decide, by decide⟩,
   c10_mutations_preserve_nul_and_capacity.2.2 [sampleBufLine] 1 ['o', 'k']
     (by decide) (by decide)⟩

theorem set_append_length {α : Type} (A : List α) (x y : α) (B : List α) :
    (A ++ x :: B).set A.length y = A ++ y :: B := by
  induction A with
  | nil => rfl
  | cons a t ih => simp [List.set, ih]

theorem eraseIdx_append_length {α : Type} (A : List α) (x : α) (B : List α) :
    (A ++ x :: B).eraseIdx A.length = A ++ B := by
  induction A with
  | nil => rfl
  | cons a t ih => simp [List.eraseIdx, ih]

theorem take_append_cons {α : Type} (A : List α) (x : α) (B : List α) :
    (A ++ x :: B).take (A.length + 1) = A ++ [x] := by
  have h : A ++ x :: B = (A ++ [x]) ++ B := by simp
  have hl : (A ++ [x]).length = A.length + 1 := by simp
  rw [h, ← hl, List.take_left]

theorem drop_append_cons {α : Type} (A : List α) (x : α) (B : List α) :
    (A ++ x :: B).drop (A.length + 1) = B := by
  have h : A ++ x :: B = (A ++ [x]) ++ B := by simp
  have hl : (A ++ [x]).length = A.length + 1 := by simp
  rw [h, ← hl, List.drop_left]

theorem push_undo_action_lines (s : EditorState) (a : UndoAction) :
    (push_undo_action s a).lines = s.lines := rfl

theorem push_undo_action_cursor_x (s : EditorState) (a : UndoAction) :
    (push_undo_action s a).cursor_x = s.cursor_x := rfl

theorem push_undo_action_cursor_y (s : EditorState) (a : UndoAction) :
    (push_undo_action s a).cursor_y = s.cursor_y := rfl

theorem editor_insert_line_cursor_x (s : EditorState) (i : Int) (t : List Char) :
    (editor_insert_line s i t).cursor_x = s.cursor_x := by
  unfold editor_insert_line
  split_ifs <;> rfl

theorem editor_insert_line_cursor_y (s : EditorState) (i : Int) (t : List Char) :
    (editor_insert_line s i t).cursor_y = s.cursor_y := by
  unfold editor_insert_line
  split_ifs <;> rfl

/-- C5: for any document line L at any row (A is the prefix of lines
above, B the suffix below) and any column c with 0 < c and c at most
the line length, splitting via `editor_insert_newline` at (row, c) and
immediately joining via the backspace-at-column-0 branch of
`editor_delete_char` reproduces the document lines exactly, hence the
original line content and length and the total line count. -/
theorem c5_split_then_join (A B : List (List Char)) (L : List Char) (c : Int)
    (d : Bool) (u r : List UndoAction) (hc1 : 0 < c) (hc2 : c ≤ (L.length : Int)) :
    (editor_delete_char (editor_insert_newline
      { lines := A ++ L :: B, cursor_x := c, cursor_y := (A.length : Int),
        dirty := d, undo_history := u, redo_history := r })).lines = A ++ L :: B := by
  set s₀ : EditorState :=
    { lines := A ++ L :: B, cursor_x := c, cursor_y := (A.length : Int),
      dirty := d, undo_history := u, redo_history := r } with hs₀
  have hc0 : ¬(s₀.cursor_x = 0) := by show ¬(c = 0); omega
  have hcA : ((A.length : Int)).toNat = A.length := by omega
  have hcA1 : ((A.length : Int) + 1).toNat = A.length + 1 := by omega
  have hl0 : lineAt s₀.lines s₀.cursor_y = L := by
    show lineAt (A ++ L :: B) (A.length : Int) = L
    unfold lineAt
    rw [hcA]
    exact getD_append_length A L B []
  have hguard : ¬((A.length : Int) + 1 < 0 ∨
      (A.length : Int) + 1 > ((A ++ L :: B).length : Int)) := by
    simp only [List.length_append, List.length_cons]
    omega
  have editor_insert_line_lines : ∀ (s : EditorState) (i : Int) (t : List Char),
      ¬(i < 0 ∨ i > (s.lines.length : Int)) →
      (editor_insert_line s i t).lines = s.lines.take i.toNat ++ t :: s.lines.drop i.toNat := by
    intro s i t h
    unfold editor_insert_line
    rw [if_neg h]
  have hl1 : (editor_insert_newline s₀).lines =
      A ++ (L.take c.toNat) :: (L.drop c.toNat) :: B := by
    unfold editor_insert_newline
    rw [if_neg hc0]
    simp only [push_undo_action_lines, push_undo_action_cursor_x, push_undo_action_cursor_y,
      hl0]
    rw [editor_insert_line_lines _ _ _ (by simp only [push_undo_action_lines]; exact hguard)]
    simp only [push_undo_action_lines, editor_insert_line_cursor_x, editor_insert_line_cursor_y,
      push_undo_action_cursor_x, push_undo_action_cursor_y, hs₀]
    rw [hcA1, take_append_cons, drop_append_cons]
    have hassoc : A ++ [L] ++ List.drop c.toNat L :: B = A ++ L :: List.drop c.toNat L :: B := by
      simp
    rw [hassoc]
    have hmid : lineAt (A ++ L :: List.drop c.toNat L :: B) (A.length : Int) = L := by
      unfold lineAt
      rw [hcA]
      exact getD_append_length A L _ []
    rw [hmid]
    unfold setLineAt
    rw [hcA]
    exact set_append_length A L (List.take c.toNat L) (List.drop c.toNat L :: B)
  have hy1 : (editor_insert_newline s₀).cursor_y = (A.length : Int) + 1 := by
    unfold editor_insert_newline
    rw [if_neg hc0]
    simp only [editor_insert_line_cursor_y, push_undo_action_cursor_y]
  have hx1 : (editor_insert_newline s₀).cursor_x = 0 := rfl
  have key₂ : ∀ (s : EditorState) (X : List (List Char)) (Y Z : List Char)
      (W : List (List Char)),
      s.lines = X ++ Y :: Z :: W → s.cursor_y = (X.length : Int) + 1 → s.cursor_x = 0 →
      (editor_delete_char s).lines = X ++ (Y ++ Z) :: W := by
    intro s X Y Z W hL hy hx
    have hXA : ((X.length : Int) + 1).toNat = X.length + 1 := by omega
    have hXA0 : ((X.length : Int) + 1 - 1).toNat = X.length := by omega
    have hg1 : ¬((X.length : Int) + 1 = ((X ++ Y :: Z :: W).length : Int)) := by
      simp only [List.length_append, List.length_cons]
      omega
    unfold editor_delete_char
    rw [hL, hy, hx]
    rw [if_neg hg1]
    rw [if_neg (by rintro ⟨h1, h2⟩; omega)]
    rw [if_neg (by omega)]
    have hsplit : X ++ Y :: Z :: W = (X ++ [Y]) ++ Z :: W := by simp
    have hlenXY : (X ++ [Y]).length = X.length + 1 := by simp
    have hlineZ : lineAt (X ++ Y :: Z :: W) ((X.length : Int) + 1) = Z := by
      unfold lineAt
      rw [hXA, hsplit, ← hlenXY]
      exact getD_append_length (X ++ [Y]) Z W []
    have hlineY : lineAt (X ++ Y :: Z :: W) ((X.length : Int) + 1 - 1) = Y := by
      unfold lineAt
      rw [hXA0]
      exact getD_append_length X Y (Z :: W) []
    have editor_delete_line_lines : ∀ (s : EditorState) (i : Int),
        ¬(i < 0 ∨ i ≥ (s.lines.length : Int)) →
        (editor_delete_line s i).lines = s.lines.eraseIdx i.toNat := by
      intro s2 i h
      unfold editor_delete_line
      rw [if_neg h]
    simp only [hlineZ, hlineY, push_undo_action_lines, push_undo_action_cursor_y,
      push_undo_action_cursor_x, hL, hy, hx]
    have hset : setLineAt (X ++ Y :: Z :: W) ((X.length : Int) + 1 - 1) (Y ++ Z) =
        X ++ (Y ++ Z) :: Z :: W := by
      unfold setLineAt
      rw [hXA0]
      exact set_append_length X Y (Y ++ Z) (Z :: W)
    rw [hset]
    rw [editor_delete_line_lines _ _ (by
      simp only [List.length_append, List.length_cons]
      omega)]
    simp only [hXA]
    have hsplit2 : X ++ (Y ++ Z) :: Z :: W = (X ++ [Y ++ Z]) ++ Z :: W := by simp
    have hlen2 : (X ++ [Y ++ Z]).length = X.length + 1 := by simp
    rw [hsplit2, ← hlen2, eraseIdx_append_length]
    simp
  have hfinal := key₂ (editor_insert_newline s₀) A (L.take c.toNat) (L.drop c.toNat) B
    hl1 hy1 hx1
  rw [hfinal, List.take_append_drop]

/-- Witness for C5 at the one-line document hi, split at column 1. -/
theorem c5_split_then_join_witness :
    (0 : Int) < 1 ∧ (1 : Int) ≤ (((['h', 'i'] : List Char)).length : Int) ∧
    (editor_delete_char (editor_insert_newline
      { lines := [['h', 'i']], cursor_x := 1, cursor_y := 0,
        dirty := false, undo_history := [], redo_history := [] })).lines = [['h', 'i']] :=
  ⟨by decide, by decide,
   c5_split_then_join [] [] ['h', 'i'] 1 false [] [] (by decide) (by decide)⟩

theorem take_succ_set {α : Type} (l : List α) (a : Nat) (t : α) (h : a < l.length) :
    (l.set a t).take (a + 1) = l.take a ++ [t] := by
  induction l generalizing a with
  | nil => simp at h
  | cons x xs ih =>
      cases a with
      | zero => simp
      | succ m =>
          simp only [List.set, List.take, List.length_cons] at h ⊢
          rw [ih m (by omega)]
          rfl

theorem setTagRange_full (hl : List HighlightType) (a : Nat) (t : HighlightType) :
    setTagRange hl a t (hl.length - a) = hl.take a ++ List.replicate (hl.length - a) t := by
  generalize hn : hl.length - a = n
  induction n generalizing hl a with
  | zero =>
      rw [List.take_of_length_le (by omega)]
      simp [setTagRange]
  | succ m ih =>
      have ha : a < hl.length := by omega
      have hm : (hl.set a t).length - (a + 1) = m := by
        rw [List.length_set]
        omega
      have hstep : setTagRange hl a t (m + 1) = setTagRange (hl.set a t) (a + 1) t m := rfl
      rw [hstep, ih (hl.set a t) (a + 1) hm, take_succ_set hl a t ha]
      simp [List.replicate_succ]

theorem hlLoop_comment_no_closer (chars : List Char) (hnc : noCloser chars) :
    ∀ (fuel i : Nat) (hl : List HighlightType) (inS : Bool) (q : Char) (fd : Bool),
      chars.length ≤ i + fuel →
      hlLoop chars fuel i hl true inS q fd =
        (setTagRange hl i .comment (chars.length - i), true) := by
  intro fuel
  induction fuel with
  | zero =>
      intro i hl inS q fd hle
      have h0 : chars.length - i = 0 := by omega
      rw [h0]
      rfl
  | succ f ih =>
      intro i hl inS q fd hle
      by_cases hi : i < chars.length
      · have hcond : (chars.getD i nulChar == '*' && decide (i + 1 < chars.length) &&
            chars.getD (i + 1) nulChar == '/') = false := by
          cases hstar : (chars.getD i nulChar == '*') with
          | false => simp only [hstar, Bool.false_and]
          | true =>
              have h1 : chars.getD i nulChar = '*' := eq_of_beq hstar
              have h2 : (chars.getD (i + 1) nulChar == '/') = false := by
                have hne : ¬(chars.getD (i + 1) nulChar = '/') := fun h => hnc i ⟨h1, h⟩
                simpa using hne
              simp only [hstar, Bool.true_and, h2, Bool.and_false]
        rw [hlLoop, if_pos hi]
        simp only [if_true]
        rw [hcond]
        simp only [Bool.false_eq_true, if_false]
        rw [ih (i + 1) (hl.set i .comment) inS q fd (by omega)]
        have harr : chars.length - i = (chars.length - (i + 1)) + 1 := by omega
        rw [harr]
        rfl
      · have h0 : chars.length - i = 0 := by omega
        rw [hlLoop, if_neg hi, h0]
        rfl


theorem update_highlighting_in_comment (chars : List Char) (hnc : noCloser chars) :
    update_highlighting true true chars =
      (List.replicate chars.length HighlightType.comment, true) := by
  unfold update_highlighting
  simp only [Bool.not_true, Bool.false_eq_true, if_false]
  rw [hlLoop_comment_no_closer chars hnc chars.length 0
    (List.replicate chars.length HighlightType.normal) false nulChar false (by omega)]
  have hfull := setTagRange_full (List.replicate chars.length HighlightType.normal) 0
    HighlightType.comment
  simp only [List.length_replicate, Nat.sub_zero, List.take_zero, List.nil_append] at hfull
  simp only [Nat.sub_zero]
  rw [hfull]

theorem highlightLines_getD (ic : Bool) (st : Bool) (doc : List (List Char)) :
    ∀ j : Nat, j < doc.length →
      (highlightLines ic st doc).1.getD j [] =
        (update_highlighting ic (highlightLines ic st (doc.take j)).2 (doc.getD j [])).1 := by
  induction doc generalizing st with
  | nil =>
      intro j hj
      simp at hj
  | cons l ls ih =>
      intro j hj
      cases j with
      | zero => simp [highlightLines, List.getD]
      | succ m =>
          have hm : m < ls.length := by
            simp only [List.length_cons] at hj
            omega
          show (highlightLines ic (update_highlighting ic st l).2 ls).1.getD m [] = _
          rw [ih (update_highlighting ic st l).2 m hm]
          rfl

/-- C6: when the document is a code file and re-highlighting runs
sequentially from the top with the block-comment state reset to false,
a line k+1 that is entered with the block-comment state on (the comment
was opened on line k) and that contains no closing marker (the comment
is first closed on line k+2) has every one of its characters tagged
Comment, regardless of which characters (quotes included) it holds. -/
theorem c6_block_comment_interior_all_comment (doc : List (List Char)) (k : Nat)
    (hk : k + 1 < doc.length)
    (hopen : entryState true doc (k + 1) = true)
    (hnc : noCloser (doc.getD (k + 1) [])) :
    (highlightLines true false doc).1.getD (k + 1) [] =
      List.replicate (doc.getD (k + 1) []).length HighlightType.comment := by
  rw [highlightLines_getD true false doc (k + 1) hk]
  have hst : (highlightLines true false (doc.take (k + 1))).2 = true := hopen
  rw [hst, update_highlighting_in_comment _ hnc]

/-- Witness for C6 at the three-line document whose block comment opens
on line 0 and first closes on line 2, with a double quote inside the
comment on line 1. -/
theorem c6_block_comment_interior_all_comment_witness :
    0 + 1 < sampleCommentDoc.length ∧
    entryState true sampleCommentDoc (0 + 1) = true ∧
    noCloser (sampleCommentDoc.getD (0 + 1) []) ∧
    (highlightLines true false sampleCommentDoc).1.getD (0 + 1) [] =
      List.replicate (sampleCommentDoc.getD (0 + 1) []).length HighlightType.comment :=
  ⟨by decide, by decide, by decide,
   c6_block_comment_interior_all_comment sampleCommentDoc 0 (by decide) (by decide) (by decide)⟩

end Unied
